import Mathlib

/-!
# Echotome: verification of the natural-language specification

A shallow embedding, in Lean 4, of the parts of the Echotome repository
that the specification claims C1-C10 talk about, together with theorems
settling each claim.

Conventions used throughout:
* Python `bytes` values are modelled as `List Nat` with entries below 256.
* Python `float` timestamps and float-valued profile fields are modelled
  as exact rationals (`ℚ`); no floating-point rounding is relevant to any
  of the claims, which only compare, add and subtract small decimals.
* Library primitives that the repository merely calls (SHA-256, HKDF,
  Argon2id, Ed25519 verification, the AEAD ciphers, base64, the `json`
  codec) are modelled either as explicit function parameters or as
  idealised functional contracts; every branch, argument and constant
  that the repository itself supplies is translated literally from the
  source.
* Fallible Python code (code that can raise) is modelled with
  `Except String`; `None`-returning lookups with `Option`.
-/

namespace Echotome

/-- UTF-8 bytes of a string, as `List Nat` (Python `s.encode("utf-8")`);
the byte list of `String.toUTF8`, spelled out so it computes by
structural recursion. -/
def utf8 (s : String) : List Nat :=
  (s.data.flatMap String.utf8EncodeChar).map (fun b => b.toNat)

/-!
## privacy.py — `validate_no_pii` (claim C8)

Source: `src/echotome/privacy.py`, lines 257-283.
-/

/-- Python `needle in hay` on strings, over the underlying character
lists: some suffix of `hay` starts with `needle`. -/
def listContainsSub (hay needle : List Char) : Bool :=
  match hay with
  | [] => needle.isEmpty
  | _ :: t => needle.isPrefixOf hay || listContainsSub t needle

/-- Python `c.isdigit()`, restricted to the ASCII digits that the claim
and the spec talk about (Python additionally accepts some non-ASCII
Unicode digit characters; none of the claims involve those). -/
def pyIsDigit (c : Char) : Bool := c.isDigit

/-- `validate_no_pii` (privacy.py:257-283), translated branch by branch:
an email check requiring both an `@` and a `.`, a total-digit-count
check, and a home-path-prefix check. -/
def validate_no_pii (data : String) : Bool :=
  let cs := data.data
  -- Check for email patterns: `if "@" in data and "." in data`
  if listContainsSub cs "@".data && listContainsSub cs ".".data then
    false
  -- Check for phone patterns: `if any(c.isdigit() ...)` then count digits
  else if cs.any pyIsDigit && decide (10 ≤ (cs.filter pyIsDigit).length) then
    false
  -- Check for file paths that might contain usernames
  else if listContainsSub cs "/home/".data || listContainsSub cs "/Users/".data
      || listContainsSub cs "C:\\".data then
    false
  else
    true

/-- `listContainsSub` agrees with `List.IsInfix`. -/
theorem listContainsSub_iff_isInfix (hay needle : List Char) :
    listContainsSub hay needle = true ↔ needle <:+: hay := by
  induction hay with
  | nil =>
    simp [listContainsSub, List.isEmpty_iff, List.infix_nil]
  | cons h t ih =>
    simp only [listContainsSub, Bool.or_eq_true, List.isPrefixOf_iff_prefix, ih]
    constructor
    · rintro (hpre | hinf)
      · exact hpre.isInfix
      · exact hinf.trans (List.suffix_cons h t).isInfix
    · rintro ⟨s, u, hsu⟩
      cases s with
      | nil => exact Or.inl ⟨u, by simpa using hsu⟩
      | cons a s =>
        right
        rw [List.cons_append, List.cons_append] at hsu
        injection hsu with h1 h2
        exact ⟨s, u, h2⟩

/-- The claim text would reject every string containing a bare `@`: the
code's email branch additionally requires a `.`. -/
theorem claim_C8_counterexample : validate_no_pii "a@b" = true := by decide

/-- C8 (amended): `validate_no_pii` returns `False` for every string that
contains `@` together with `.`, for every string that contains ten or
more consecutive digits, and for every string containing one of the
home-path prefixes `/home/`, `/Users/`, `C:\`. -/
theorem claim_C8_holds (data : String) :
    (listContainsSub data.data "@".data = true →
      listContainsSub data.data ".".data = true →
      validate_no_pii data = false)
    ∧ (∀ l : List Char, l.length = 10 → (∀ c ∈ l, pyIsDigit c = true) →
        l <:+: data.data → validate_no_pii data = false)
    ∧ ((listContainsSub data.data "/home/".data = true ∨
        listContainsSub data.data "/Users/".data = true ∨
        listContainsSub data.data "C:\\".data = true) →
      validate_no_pii data = false) := by
  refine ⟨fun h1 h2 => ?_, fun l hlen hdig hinf => ?_, fun h3 => ?_⟩
  · simp [validate_no_pii, h1, h2]
  · have hcount : 10 ≤ (data.data.filter pyIsDigit).length := by
      have hsub := hinf.sublist
      have h1 : (l.filter pyIsDigit).length ≤ (data.data.filter pyIsDigit).length := by
        simpa [← List.countP_eq_length_filter] using hsub.countP_le (pyIsDigit ·)
      have h2 : l.filter pyIsDigit = l := List.filter_eq_self.mpr hdig
      rw [h2, hlen] at h1
      exact h1
    have hany : data.data.any pyIsDigit = true := by
      rcases l with _ | ⟨c, t⟩
      · simp at hlen
      · have hc : c ∈ data.data := hinf.sublist.mem (by simp)
        exact List.any_eq_true.mpr ⟨c, hc, hdig c (by simp)⟩
    by_cases hb1 : listContainsSub data.data "@".data && listContainsSub data.data ".".data
    · simp [validate_no_pii, hb1]
    · simp [validate_no_pii, hb1, hany, hcount]
  · by_cases hb1 : listContainsSub data.data "@".data && listContainsSub data.data ".".data
    · simp [validate_no_pii, hb1]
    · by_cases hb2 : data.data.any pyIsDigit && decide (10 ≤ (data.data.filter pyIsDigit).length)
      · simp [validate_no_pii, hb1, hb2]
      · rcases h3 with h | h | h <;> simp [validate_no_pii, hb1, hb2, h]

/-- Witness for C8: the home-path clause applied to a concrete string. -/
theorem claim_C8_witness : validate_no_pii "/home/alice" = false :=
  (claim_C8_holds "/home/alice").2.2 (Or.inl (by decide))

/-!
## recovery.py — recovery codes (claim C10)

Source: `src/echotome/recovery.py`.  SHA-256 is a library primitive the
code calls on the normalized code text; it is modelled as an explicit
function parameter `sha256hex` (hex digest of the UTF-8 of a string).
-/

/-- `RecoveryConfig` (recovery.py:20-34). -/
structure RecoveryConfig where
  enabled : Bool
  codes_hashes : List String
  use_count : Nat
  last_used_timestamp : Option ℚ
  deriving DecidableEq

/-- The normalization `code.replace("-", "").replace(" ", "").upper()`
performed by `verify_recovery_code` (recovery.py:123).  Removing the two
characters and upper-casing commute, so the two `replace` passes are a
single filter.  `Char.toUpper` matches Python `str.upper` on the ASCII
code alphabet. -/
def normalizeRecoveryCode (code : String) : String :=
  ⟨(code.data.filter (fun c => !(c = '-' || c = ' '))).map Char.toUpper⟩

/-- `verify_recovery_code` (recovery.py:111-129). -/
def verify_recovery_code (sha256hex : String → String)
    (code : String) (hashes : List String) : Bool :=
  sha256hex (normalizeRecoveryCode code) ∈ hashes

/-- `validate_and_mark_used` (recovery.py:167-193); the Python function
mutates `config` in place, so it is modelled as returning the updated
configuration next to its boolean result. -/
def validate_and_mark_used (sha256hex : String → String)
    (config : RecoveryConfig) (code : String) (current_timestamp : ℚ) :
    Bool × RecoveryConfig :=
  if !config.enabled then
    (false, config)
  else if !verify_recovery_code sha256hex code config.codes_hashes then
    (false, config)
  else
    (true, { config with
              use_count := config.use_count + 1
              last_used_timestamp := some current_timestamp })

/-- Repeated use of `validate_and_mark_used` with one code and a list of
timestamps, threading the configuration state. -/
def validate_n_times (sha256hex : String → String) (code : String) :
    List ℚ → RecoveryConfig → List Bool × RecoveryConfig
  | [], config => ([], config)
  | t :: ts, config =>
    let r := validate_and_mark_used sha256hex config code t
    let rest := validate_n_times sha256hex code ts r.2
    (r.1 :: rest.1, rest.2)

/-- C10: `validate_and_mark_used` never touches `enabled` or
`codes_hashes`, and consequently an enabled configuration whose hash
list contains the hash of a code validates that same code successfully
an unbounded number of times. -/
theorem claim_C10_holds (sha256hex : String → String)
    (config : RecoveryConfig) (code : String) (t : ℚ) (ts : List ℚ) :
    ((validate_and_mark_used sha256hex config code t).2.enabled = config.enabled
      ∧ (validate_and_mark_used sha256hex config code t).2.codes_hashes
          = config.codes_hashes)
    ∧ (config.enabled = true →
        sha256hex (normalizeRecoveryCode code) ∈ config.codes_hashes →
        (validate_n_times sha256hex code ts config).1 = ts.map (fun _ => true)) := by
  constructor
  · unfold validate_and_mark_used
    split
    · exact ⟨rfl, rfl⟩
    · split
      · exact ⟨rfl, rfl⟩
      · exact ⟨rfl, rfl⟩
  · intro hen hmem
    induction ts generalizing config with
    | nil => rfl
    | cons t0 ts ih =>
      have hv : verify_recovery_code sha256hex code config.codes_hashes = true := by
        simpa [verify_recovery_code] using hmem
      have hstep : validate_and_mark_used sha256hex config code t0 =
          (true, { config with
                    use_count := config.use_count + 1
                    last_used_timestamp := some t0 }) := by
        simp [validate_and_mark_used, hen, hv]
      simp only [validate_n_times, hstep, List.map_cons]
      exact congrArg (true :: ·) (ih _ hen hmem)

/-- Witness for C10: three successive uses of the same code all
succeed against a concrete enabled configuration. -/
theorem claim_C10_witness :
    (validate_n_times (fun s => s) "ab-cd"
        [1, 2, 3] ⟨true, ["ABCD"], 0, none⟩).1 = [true, true, true] :=
  (claim_C10_holds (fun s => s) ⟨true, ["ABCD"], 0, none⟩ "ab-cd" 0
      [1, 2, 3]).2 rfl (by decide)

/-!
## sessions.py — session manager (claims C3, C4)

Source: `src/echotome/sessions.py`.  Timestamps (`time.time()`) are
rationals supplied by the caller.  The manager's `threading.Lock` is a
non-reentrant mutex: acquiring it while it is already held by the same
caller blocks forever.  The embedding makes that explicit: every public
method first checks the `lockHeld` bit and a nested acquisition yields
the `deadlock` outcome, which models a call that never returns.
Filesystem effects are reduced to the set of existing session
directories, keyed by session id.  Random session-id generation
(`_generate_session_id`) is modelled by passing the fresh id in.
-/

/-- `SessionConfig` (sessions.py:34-43). -/
structure SessionConfig where
  default_ttl_seconds : Nat
  max_ttl_seconds : Nat
  auto_lock_on_background : Bool
  allow_external_apps : Bool
  secure_delete : Bool
  deriving DecidableEq

/-- `SessionConfig.for_profile` (sessions.py:44-79). -/
def SessionConfig.for_profile (profile_name : String) : SessionConfig :=
  if profile_name = "Quick Lock" then
    { default_ttl_seconds := 30 * 60, max_ttl_seconds := 120 * 60,
      auto_lock_on_background := false, allow_external_apps := true,
      secure_delete := false }
  else if profile_name = "Ritual Lock" then
    { default_ttl_seconds := 15 * 60, max_ttl_seconds := 60 * 60,
      auto_lock_on_background := false, allow_external_apps := true,
      secure_delete := true }
  else if profile_name = "Black Vault" then
    { default_ttl_seconds := 5 * 60, max_ttl_seconds := 15 * 60,
      auto_lock_on_background := true, allow_external_apps := false,
      secure_delete := true }
  else
    { default_ttl_seconds := 15 * 60, max_ttl_seconds := 60 * 60,
      auto_lock_on_background := false, allow_external_apps := true,
      secure_delete := true }

/-- `Session` (sessions.py:82-98); `session_dir` existence and
`decrypted_files` live in the manager state's directory set. -/
structure Session where
  session_id : String
  vault_id : String
  profile : String
  created_at : ℚ
  expires_at : ℚ
  last_activity : ℚ
  master_key : Option (List Nat)
  deriving DecidableEq

/-- `Session.is_expired` (sessions.py:100-102): `time.time() > expires_at`. -/
def Session.is_expired (s : Session) (now : ℚ) : Bool :=
  decide (s.expires_at < now)

/-- The mutable state of a `SessionManager` (sessions.py:133-152):
the `_sessions` dict (as an association list in insertion order), the
set of session directories that exist on disk, and whether `_lock` is
currently held. -/
structure SessionManagerState where
  sessions : List (String × Session)
  dirs : List String
  lockHeld : Bool
  deriving DecidableEq

/-- Outcome of a `SessionManager` method call: either a value together
with the state after the call, or a call that never returns because it
attempted to re-acquire the held non-reentrant `_lock`. -/
inductive LockedResult (α : Type) where
  | deadlock : LockedResult α
  | ok : α → SessionManagerState → LockedResult α
  deriving DecidableEq

/-- `SessionManager.end_session` (sessions.py:243-279): acquire the
lock, wipe the master key (overwrite with zeros, drop the handle),
remove the session directory, delete the map entry. -/
def end_session (st : SessionManagerState) (session_id : String) :
    LockedResult Unit :=
  if st.lockHeld then .deadlock else
  let held := { st with lockHeld := true }
  match held.sessions.lookup session_id with
  | none => .ok () { held with lockHeld := false }
  | some _ =>
    .ok ()
      { sessions := held.sessions.filter (fun p => decide (p.1 ≠ session_id))
        dirs := held.dirs.filter (fun d => decide (d ≠ session_id))
        lockHeld := false }

/-- `SessionManager.get_session` (sessions.py:215-232).  On an expired
session the code calls `self.end_session(session_id)` while `with
self._lock:` is still in force; `end_session` starts with `with
self._lock:` of its own. -/
def get_session (st : SessionManagerState) (now : ℚ) (session_id : String) :
    LockedResult (Option Session) :=
  if st.lockHeld then .deadlock else
  let held := { st with lockHeld := true }
  match held.sessions.lookup session_id with
  | none => .ok none { held with lockHeld := false }
  | some s =>
    if s.is_expired now then
      match end_session held session_id with
      | .deadlock => .deadlock
      | .ok _ st2 => .ok none { st2 with lockHeld := false }
    else
      let s2 := { s with last_activity := now }
      .ok (some s2)
        { held with
            sessions := held.sessions.map
              (fun p => if p.1 = session_id then (p.1, s2) else p)
            lockHeld := false }

/-- `SessionManager.create_session` (sessions.py:154-213). -/
def create_session (st : SessionManagerState) (now : ℚ)
    (vault_id profile : String) (master_key : List Nat)
    (ttl_seconds : Option Nat) (new_session_id : String) :
    LockedResult Session :=
  if st.lockHeld then .deadlock else
  let config := SessionConfig.for_profile profile
  let ttl : Nat :=
    match ttl_seconds with
    | none => config.default_ttl_seconds
    | some t => min t config.max_ttl_seconds
  let session : Session :=
    { session_id := new_session_id, vault_id := vault_id, profile := profile,
      created_at := now, expires_at := now + ttl, last_activity := now,
      master_key := some master_key }
  .ok session
    { sessions := st.sessions ++ [(new_session_id, session)]
      dirs := new_session_id :: st.dirs
      lockHeld := false }

/-- C3 (bug exhibit): a `get_session` call on an expired session never
returns at all — it deadlocks re-acquiring the non-reentrant `_lock`
inside `end_session` — so it neither reports the session absent nor
zeroizes the key nor removes the directory.  (The repository's own
`test_session_expiry` expects `get_session` to return `None` there.) -/
theorem claim_C3_holds (st : SessionManagerState) (now : ℚ)
    (session_id : String) (s : Session)
    (hlock : st.lockHeld = false)
    (hfind : st.sessions.lookup session_id = some s)
    (hexp : s.expires_at < now) :
    get_session st now session_id = .deadlock := by
  simp [get_session, end_session, Session.is_expired, hlock, hfind, hexp]

/-- Witness for C3 at a concrete expired session. -/
theorem claim_C3_witness :
    get_session
      ⟨[("sid1", ⟨"sid1", "vault1", "Black Vault", 0, 10, 0, some [7]⟩)],
        ["sid1"], false⟩ 11 "sid1" = .deadlock :=
  claim_C3_holds _ 11 "sid1" ⟨"sid1", "vault1", "Black Vault", 0, 10, 0, some [7]⟩
    rfl rfl (by norm_num)

/-- Remaining lifetime `expires_at - created_at` of a freshly created
session, when creation returned one. -/
def createdSessionLifetime : LockedResult Session → Option ℚ
  | .deadlock => none
  | .ok s _ => some (s.expires_at - s.created_at)

/-- The claim text caps the surviving TTL at 300 s: in the code the
requested 3600 s are clamped only to `max_ttl_seconds = 900`, so the
session lives 900 s. -/
theorem claim_C4_counterexample :
    createdSessionLifetime
      (create_session ⟨[], [], false⟩ 0 "vault1" "Black Vault"
        (List.replicate 32 0) (some 3600) "sid1") = some 900
    ∧ ¬ ((900 : ℚ) ≤ 300) := by
  constructor
  · simp [create_session, createdSessionLifetime, SessionConfig.for_profile]
  · norm_num

/-- C4 (amended): creating a Black Vault session with a requested TTL of
3600 s yields a session whose lifetime `expires_at - created_at` is at
most 900 s (the Black Vault `max_ttl_seconds`). -/
theorem claim_C4_holds (sessions : List (String × Session))
    (dirs : List String) (now : ℚ) (vault_id : String)
    (master_key : List Nat) (new_session_id : String) :
    ∃ s st2,
      create_session ⟨sessions, dirs, false⟩ now vault_id "Black Vault"
          master_key (some 3600) new_session_id = .ok s st2
      ∧ s.expires_at - s.created_at ≤ 900 := by
  refine ⟨_, _, rfl, ?_⟩
  simp [SessionConfig.for_profile]

/-!
## privacy_profiles.py and crypto_core.py — AF-KDF (claim C2)

Source: `src/echotome/privacy_profiles.py` (the profile records) and
`src/echotome/crypto_core.py`, lines 52-131 (`hash_audio_features`,
`derive_final_key`).  SHA-256, HKDF-SHA256 and Argon2id are library
primitives and are modelled as an explicit bundle of function
parameters; `derive_final_key` supplies every argument the source
supplies (the Argon2 branch is the `ARGON2_AVAILABLE = True` branch;
the scrypt fallback is not modelled).  Audio features enter only
through their canonical byte form, which the source hashes verbatim.
-/

/-- `PrivacyProfile` (privacy_profiles.py:7-52). -/
structure PrivacyProfile where
  name : String
  kdf_time : Nat
  kdf_memory : Nat
  kdf_parallelism : Nat
  audio_weight : ℚ
  deniable : Bool
  requires_mic : Bool
  requires_timing : Bool
  hardware_recommended : Bool
  unrecoverable_default : Bool
  threat_model_id : String
  threat_model_description : String
  threat_model_assumptions : String
  threat_model_protects_against : String
  threat_model_does_not_protect_against : String
  allows_visual_ritual : Bool
  session_ttl_seconds : Nat := 900
  allow_plaintext_disk : Bool := true

/-- `BLACK_VAULT` (privacy_profiles.py:146-179). -/
def BLACK_VAULT : PrivacyProfile :=
  { name := "Black Vault"
    kdf_time := 8
    kdf_memory := 262144
    kdf_parallelism := 8
    audio_weight := 1
    deniable := true
    requires_mic := true
    requires_timing := true
    hardware_recommended := true
    unrecoverable_default := true
    threat_model_id := "targeted"
    threat_model_description := "Designed for high-sensitivity data where targeted attacks and file copies are assumed. Requires live microphone ritual with timing enforcement."
    threat_model_assumptions := "User is under active surveillance or targeted attack. Encrypted files may be copied multiple times. Attacker has significant resources. User must perform live ritual to prove possession."
    threat_model_protects_against := "File theft without live ritual capability. Offline attacks with all file artifacts. Coercion scenarios (can deny vault exists or claim data is destroyed). Advanced timing attacks and audio synthesis. File copy analysis over extended time."
    threat_model_does_not_protect_against := "Live device compromise during unlock. Rubber-hose cryptanalysis (physical coercion during ritual). State-level adversaries with quantum computing (future threat). Attacks after successful unlock while vault is open."
    allows_visual_ritual := false
    session_ttl_seconds := 300
    allow_plaintext_disk := false }

/-- `QUICK_LOCK` (privacy_profiles.py:65-95); only the fields the claims
touch are exercised, but the whole record is carried. -/
def QUICK_LOCK : PrivacyProfile :=
  { name := "Quick Lock"
    kdf_time := 2
    kdf_memory := 65536
    kdf_parallelism := 2
    audio_weight := 0
    deniable := false
    requires_mic := false
    requires_timing := false
    hardware_recommended := false
    unrecoverable_default := false
    threat_model_id := "casual"
    threat_model_description := "Protects against casual snooping and opportunistic access to unlocked/unattended devices."
    threat_model_assumptions := "User has a strong passphrase. Device is not compromised. Attacker has physical access but limited time and no technical expertise."
    threat_model_protects_against := "Casual device access, family/roommate snooping, lost device with screen lock bypass. Non-targeted attacks without access to encryption keys or passphrases."
    threat_model_does_not_protect_against := "Targeted attacks with cryptanalysis capability. File copies analyzed offline. Attackers with both device and ritual audio track. State-level adversaries."
    allows_visual_ritual := true
    session_ttl_seconds := 3600
    allow_plaintext_disk := true }

/-- The cryptographic primitives `derive_final_key` calls; each is a
pure function of exactly the arguments the `cryptography` library
receives from the source. -/
structure KDFPrims where
  sha256 : List Nat → List Nat
  hkdf_sha256 : (length : Nat) → (salt : List Nat) → (info : List Nat) →
    (ikm : List Nat) → List Nat
  argon2id : (salt : List Nat) → (length : Nat) → (iterations : Nat) →
    (lanes : Nat) → (memory_cost : Nat) → (ikm : List Nat) → List Nat

/-- `hash_audio_features` (crypto_core.py:52-57): SHA-256 of the
canonical float32 byte form of the feature vector. -/
def hash_audio_features (prims : KDFPrims) (featureBytes : List Nat) : List Nat :=
  prims.sha256 featureBytes

/-- `derive_final_key` (crypto_core.py:60-131), Argon2 branch.  Note the
hardcoded `lanes := 4` in the Argon2id call, exactly as in the source
(`lanes=4`, crypto_core.py:114). -/
def derive_final_key (prims : KDFPrims) (passphrase : String)
    (featureBytes : List Nat) (profile : PrivacyProfile) : List Nat :=
  let audio_hash := hash_audio_features prims featureBytes
  let passphrase_bytes := utf8 passphrase
  let profile_bytes := utf8 profile.name
  let intermediate_key := prims.hkdf_sha256 32 audio_hash profile_bytes passphrase_bytes
  let salt :=
    if 0 < profile.audio_weight then
      (prims.sha256 (audio_hash ++ profile_bytes)).take 16
    else
      (prims.sha256 profile_bytes).take 16
  prims.argon2id salt 32 profile.kdf_time 4 profile.kdf_memory intermediate_key

/-- A probe instantiation of the primitives whose Argon2id records the
`lanes` argument it was given. -/
def lanesProbe : KDFPrims :=
  { sha256 := fun _ => []
    hkdf_sha256 := fun _ _ _ _ => []
    argon2id := fun _ _ _ lanes _ _ => [lanes] }

/-- C2 (bug exhibit): the derived key does not depend on the profile's
`kdf_parallelism` at all, because the Argon2id call hardcodes
`lanes=4`; in particular for Black Vault (parallelism 8) the lanes
argument that reaches Argon2id is 4.  The HKDF stage does receive
`salt = SHA-256(feature bytes)`, `info = profile name`,
`ikm = passphrase`, `L = 32` as claimed — that part is part of the
definition above — but the claimed parametrisation by the profile
triple fails in its third component. -/
theorem claim_C2_holds :
    (∀ (prims : KDFPrims) (passphrase : String) (featureBytes : List Nat)
        (profile : PrivacyProfile) (n : Nat),
      derive_final_key prims passphrase featureBytes
          { profile with kdf_parallelism := n }
        = derive_final_key prims passphrase featureBytes profile)
    ∧ derive_final_key lanesProbe "pw" [] BLACK_VAULT = [4]
    ∧ BLACK_VAULT.kdf_parallelism = 8
    ∧ QUICK_LOCK.kdf_parallelism = 2 := by
  refine ⟨fun prims passphrase featureBytes profile n => rfl, ?_, rfl, rfl⟩
  simp [derive_final_key, lanesProbe, BLACK_VAULT]

/-!
## crypto_core.py — AEAD envelope (claim C1)

Source: `src/echotome/crypto_core.py`, lines 134-221.  The `json.dumps
(context, sort_keys=True)` canonicalisation is embedded concretely for
the value shapes contexts carry (strings and booleans; Python's default
separators `", "` / `": "`, keys sorted by code point; the escaping of
characters outside `"` and `\` is not exercised by any context).  The
AEAD cipher itself is the library's; it is modelled by its functional
contract: decryption returns the plaintext exactly when key, nonce and
AAD all match the encryption, and fails otherwise.  Hex round-trips
(`nonce.hex()` / `bytes.fromhex`) are identities and are elided.
-/

/-- JSON values occurring in AEAD contexts (strings and booleans). -/
inductive JsonValue where
  | str : String → JsonValue
  | bool : Bool → JsonValue
  deriving DecidableEq

/-- JSON string escaping as `json.dumps` performs it on the quote and
backslash characters (the only escapable characters these payloads can
carry). -/
def jsonEscapeChar (c : Char) : List Char :=
  if c = '\\' then ['\\', '\\']
  else if c = '\"' then ['\\', '\"']
  else [c]

/-- A JSON string literal: `"` + escaped body + `"`. -/
def jsonString (s : String) : String :=
  ⟨'\"' :: (s.data.flatMap jsonEscapeChar ++ ['\"'])⟩

/-- Serialization of a single JSON value. -/
def dumpJsonValue : JsonValue → String
  | .str s => jsonString s
  | .bool b => if b then "true" else "false"

/-- Python string comparison: lexicographic by code point. -/
def charListLe : List Char → List Char → Bool
  | [], _ => true
  | _ :: _, [] => false
  | a :: as, b :: bs => if a = b then charListLe as bs else decide (a.val < b.val)

/-- Key order for `sort_keys=True`. -/
def keyLe (a b : String) : Bool := charListLe a.data b.data

/-- Insertion into a key-sorted association list. -/
def insertByKey (x : String × JsonValue) :
    List (String × JsonValue) → List (String × JsonValue)
  | [] => [x]
  | y :: ys => if keyLe x.1 y.1 then x :: y :: ys else y :: insertByKey x ys

/-- Keys sorted ascending, as `sort_keys=True` orders a dict. -/
def sortByKey (l : List (String × JsonValue)) : List (String × JsonValue) :=
  l.foldr insertByKey []

/-- `json.dumps(ctx, sort_keys=True)` with Python's default separators. -/
def json_dumps_sorted (ctx : List (String × JsonValue)) : String :=
  "\x7b" ++ String.intercalate ", "
      ((sortByKey ctx).map (fun p => jsonString p.1 ++ ": " ++ dumpJsonValue p.2))
    ++ "\x7d"

/-- `dict.get(key, "")` for the string-valued fields the blob copies. -/
def ctxGetStr (ctx : List (String × JsonValue)) (key : String) : String :=
  match ctx.lookup key with
  | some (.str s) => s
  | _ => ""

/-- `dict.get("deniable", False)` truthiness for the boolean flag. -/
def ctxGetBool (ctx : List (String × JsonValue)) (key : String) : Bool :=
  match ctx.lookup key with
  | some (.bool b) => b
  | _ => false

/-- The functional contract of the library AEAD (XChaCha20-Poly1305 /
AES-GCM): a ciphertext determines its plaintext, and decryption opens
it exactly when key, nonce and AAD coincide with encryption. -/
structure AEADCiphertext where
  key : List Nat
  nonce : List Nat
  plaintext : List Nat
  aad : List Nat
  deriving DecidableEq

/-- `cipher.encrypt(nonce, data, aad)`. -/
def aead_encrypt (key nonce data aad : List Nat) : AEADCiphertext :=
  ⟨key, nonce, data, aad⟩

/-- `cipher.decrypt(nonce, ciphertext, aad)`, `none` = InvalidTag. -/
def aead_decrypt (key nonce : List Nat) (ct : AEADCiphertext)
    (aad : List Nat) : Option (List Nat) :=
  if ct.key = key ∧ ct.nonce = nonce ∧ ct.aad = aad then some ct.plaintext
  else none

/-- `EncryptedBlob` (crypto_core.py:24-49); nonce and ciphertext are
carried as bytes rather than their hex spellings. -/
structure EncryptedBlob where
  version : String
  nonce : List Nat
  ciphertext : AEADCiphertext
  auth_tag : String
  profile_name : String
  rune_id : String
  decoy_header : Option String
  deriving DecidableEq

/-- `encrypt_bytes` (crypto_core.py:134-175), XChaCha20-Poly1305 branch
(the AES-GCM fallback differs only in nonce length and builds its AAD
the same way).  The fresh random nonce and the random decoy header are
passed in.  Note the AAD is the canonical JSON of the WHOLE context. -/
def encrypt_bytes (data key nonce : List Nat)
    (context : List (String × JsonValue)) (decoy : String) : EncryptedBlob :=
  let aad := utf8 (json_dumps_sorted context)
  let ciphertext := aead_encrypt key nonce data aad
  { version := "2.0"
    nonce := nonce
    ciphertext := ciphertext
    auth_tag := ""
    profile_name := ctxGetStr context "profile_name"
    rune_id := ctxGetStr context "rune_id"
    decoy_header := if ctxGetBool context "deniable" then some decoy else none }

/-- `decrypt_bytes` (crypto_core.py:178-221): the AAD is rebuilt from
ONLY `{profile_name, rune_id}`. -/
def decrypt_bytes (blob : EncryptedBlob) (key : List Nat) :
    Except String (List Nat) :=
  let context : List (String × JsonValue) :=
    [("profile_name", .str blob.profile_name), ("rune_id", .str blob.rune_id)]
  let aad := utf8 (json_dumps_sorted context)
  if blob.nonce.length = 24 then
    match aead_decrypt key blob.nonce blob.ciphertext aad with
    | some pt => .ok pt
    | none => .error "Decryption failed"
  else if blob.nonce.length = 12 then
    match aead_decrypt key blob.nonce blob.ciphertext aad with
    | some pt => .ok pt
    | none => .error "Decryption failed"
  else
    .error "Invalid nonce length"

/-- C1 (bug exhibit): with a context carrying an extra key (`deniable`,
as the Black Vault pipeline always passes), encryption authenticates
the canonical JSON of the whole context while decryption rebuilds the
AAD from `{profile_name, rune_id}` only, so the round trip fails; with
a context of exactly those two keys the round trip does return the
plaintext. -/
theorem claim_C1_holds :
    decrypt_bytes
        (encrypt_bytes [104, 105] (List.replicate 32 0) (List.replicate 24 0)
          [("profile_name", .str "Black Vault"), ("rune_id", .str "ECH-00000000"),
            ("deniable", .bool true)] "DECOY_PNG_ab")
        (List.replicate 32 0) = .error "Decryption failed"
    ∧ (∀ (data key nonce : List Nat) (p r : String), nonce.length = 24 →
        decrypt_bytes
            (encrypt_bytes data key nonce
              [("profile_name", .str p), ("rune_id", .str r)] "")
            key = .ok data) := by
  constructor
  · rfl
  · intro data key nonce p r hn
    have hsort : sortByKey [("profile_name", JsonValue.str p), ("rune_id", JsonValue.str r)]
        = [("profile_name", JsonValue.str p), ("rune_id", JsonValue.str r)] := by
      simp [sortByKey, insertByKey, keyLe]
      decide
    simp [encrypt_bytes, decrypt_bytes, ctxGetStr, ctxGetBool, aead_encrypt,
      aead_decrypt, hn, List.lookup, json_dumps_sorted, hsort]

/-- Witness for C1's second conjunct at concrete data. -/
theorem claim_C1_witness :
    decrypt_bytes
        (encrypt_bytes [1, 2, 3] (List.replicate 32 9) (List.replicate 24 5)
          [("profile_name", .str "Quick Lock"), ("rune_id", .str "ECH-AAAA1111")] "")
        (List.replicate 32 9) = .ok [1, 2, 3] :=
  claim_C1_holds.2 [1, 2, 3] (List.replicate 32 9) (List.replicate 24 5)
    "Quick Lock" "ECH-AAAA1111" (by decide)

/-!
## temporal_salt_chain.py — streaming temporal hash (claims C5, C9)

Source: `src/echotome/temporal_salt_chain.py`.  SHA-256 is an explicit
function parameter; frames enter through their float32 byte form, which
is all `_chain_frame` hashes.  Frame arrival timestamps (`time.time()`)
are exact rationals; the `timestamp=None` default of `add_frame` is
subsumed by the caller supplying the timestamp.
-/

/-- `TSC_PREFIX` (temporal_salt_chain.py:11). -/
def TSC_PREFIX : List Nat := utf8 "ECHOTOME-TSC-V3"

/-- `JITTER_BYTES` (temporal_salt_chain.py:12). -/
def JITTER_BYTES : Nat := 8

/-- `MAX_PLAYBACK_SPEED = 1.2` (temporal_salt_chain.py:13). -/
def MAX_PLAYBACK_SPEED : ℚ := 12/10

/-- `MIN_PLAYBACK_SPEED = 0.8` (temporal_salt_chain.py:14). -/
def MIN_PLAYBACK_SPEED : ℚ := 8/10

/-- `n.to_bytes(8, "big")`. -/
def toBytesBE8 (n : Nat) : List Nat :=
  [n >>> 56 % 256, n >>> 48 % 256, n >>> 40 % 256, n >>> 32 % 256,
    n >>> 24 % 256, n >>> 16 % 256, n >>> 8 % 256, n % 256]

/-- `_initialize_tsc_state` (temporal_salt_chain.py:77-92). -/
def _initialize_tsc_state (sha256 : List Nat → List Nat)
    (device_pub : List Nat) (track_length : Nat) : List Nat :=
  sha256 (TSC_PREFIX ++ device_pub ++ toBytesBE8 track_length)

/-- `_generate_jitter` (temporal_salt_chain.py:124-141). -/
def _generate_jitter (sha256 : List Nat → List Nat)
    (state : List Nat) (frame_idx : Nat) : List Nat :=
  (sha256 (state ++ toBytesBE8 frame_idx)).take JITTER_BYTES

/-- `_chain_frame` (temporal_salt_chain.py:95-121); `frameBytes` is the
frame's float32 byte serialization. -/
def _chain_frame (sha256 : List Nat → List Nat)
    (state frameBytes : List Nat) (frame_idx : Nat) : List Nat :=
  let fh := sha256 frameBytes
  let jitter := _generate_jitter sha256 state frame_idx
  sha256 (state ++ fh ++ jitter ++ toBytesBE8 frame_idx)

/-- `np.diff` on the timing list. -/
def diffs : List ℚ → List ℚ
  | a :: b :: rest => (b - a) :: diffs (b :: rest)
  | _ => []

/-- `expected_interval = 0.032` (temporal_salt_chain.py:173). -/
def expected_interval : ℚ := 32/1000

/-- `np.sum(intervals < expected_interval * MIN_PLAYBACK_SPEED) /
len(intervals)` (temporal_salt_chain.py:180). -/
def fracBelow (intervals : List ℚ) : ℚ :=
  ((intervals.filter
      (fun d => decide (d < expected_interval * MIN_PLAYBACK_SPEED))).length : ℚ)
    / (intervals.length : ℚ)

/-- `np.sum(intervals > expected_interval * MAX_PLAYBACK_SPEED * 3) /
len(intervals)` (temporal_salt_chain.py:188). -/
def fracAbove (intervals : List ℚ) : ℚ :=
  ((intervals.filter
      (fun d => decide (expected_interval * MAX_PLAYBACK_SPEED * 3 < d))).length : ℚ)
    / (intervals.length : ℚ)

/-- `_validate_timing` (temporal_salt_chain.py:144-193). -/
def _validate_timing (timing_data : List ℚ) (expected_frames : Nat) :
    Except String Unit :=
  if timing_data.length ≠ expected_frames then
    .error "Timing data mismatch"
  else if timing_data.length < 2 then
    .ok ()
  else
    let intervals := diffs timing_data
    if 1/10 < fracBelow intervals then
      .error "Playback timing invalid: frames arrived too quickly"
    else if 2/10 < fracAbove intervals then
      .error "Playback timing invalid: frames arrived too slowly"
    else
      .ok ()

/-- `TemporalHashStreamer` state (temporal_salt_chain.py:231-248). -/
structure TemporalHashStreamer where
  device_pub : List Nat
  track_length : Nat
  state : List Nat
  frame_idx : Nat
  timing_data : List ℚ
  start_time : Option ℚ
  finalized : Bool
  deriving DecidableEq

/-- The field values `__init__` installs (after its length check). -/
def streamerNew (sha256 : List Nat → List Nat)
    (device_pub : List Nat) (track_length : Nat) : TemporalHashStreamer :=
  { device_pub := device_pub
    track_length := track_length
    state := _initialize_tsc_state sha256 device_pub track_length
    frame_idx := 0
    timing_data := []
    start_time := none
    finalized := false }

/-- `TemporalHashStreamer.__init__` (temporal_salt_chain.py:231-248)
with its device-key length check. -/
def streamer_init (sha256 : List Nat → List Nat)
    (device_pub : List Nat) (track_length : Nat) :
    Except String TemporalHashStreamer :=
  if device_pub.length ≠ 32 then .error "Invalid device_pub length"
  else .ok (streamerNew sha256 device_pub track_length)

/-- `TemporalHashStreamer.add_frame` (temporal_salt_chain.py:250-275). -/
def add_frame (sha256 : List Nat → List Nat) (s : TemporalHashStreamer)
    (frameBytes : List Nat) (timestamp : ℚ) :
    Except String TemporalHashStreamer :=
  if s.finalized then .error "Streamer already finalized"
  else
    let start := s.start_time.getD timestamp
    .ok { s with
          start_time := some start
          timing_data := s.timing_data ++ [timestamp - start]
          state := _chain_frame sha256 s.state frameBytes s.frame_idx
          frame_idx := s.frame_idx + 1 }

/-- `TemporalHashStreamer.finalize` (temporal_salt_chain.py:277-297);
the Python method mutates `self`, so the post-state is returned next to
the hash. -/
def finalize (s : TemporalHashStreamer) (validate_timing : Bool) :
    Except String (List Nat × TemporalHashStreamer) :=
  if s.finalized then .ok (s.state, s)
  else if validate_timing && decide (1 < s.timing_data.length) then
    match _validate_timing s.timing_data s.frame_idx with
    | .error e => .error e
    | .ok _ => .ok (s.state, { s with finalized := true })
  else
    .ok (s.state, { s with finalized := true })

/-- A whole streaming run: `add_frame` over a list of (frame bytes,
timestamp) pairs. -/
def addFrames (sha256 : List Nat → List Nat) :
    List (List Nat × ℚ) → TemporalHashStreamer →
    Except String TemporalHashStreamer
  | [], s => .ok s
  | (f, t) :: rest, s =>
    match add_frame sha256 s f t with
    | .error e => .error e
    | .ok s2 => addFrames sha256 rest s2

/-- The timing-independent chain value of a frame sequence, starting
from a given state and index (the loop of `compute_temporal_hash`). -/
def chainFrames (sha256 : List Nat → List Nat) (state : List Nat)
    (start_idx : Nat) : List (List Nat) → List Nat
  | [] => state
  | f :: fs => chainFrames sha256 (_chain_frame sha256 state f start_idx) (start_idx + 1) fs

/-- Running `add_frame` over inputs from a non-finalized streamer whose
start time is already set: the state chains the frames, the frame index
advances by the number of frames, and the timing list records
timestamps relative to the start time. -/
theorem addFrames_ok (sha256 : List Nat → List Nat)
    (inputs : List (List Nat × ℚ)) (s : TemporalHashStreamer) (t0 : ℚ)
    (hfin : s.finalized = false) (hst : s.start_time = some t0) :
    addFrames sha256 inputs s = .ok
      { s with
        state := chainFrames sha256 s.state s.frame_idx (inputs.map Prod.fst)
        frame_idx := s.frame_idx + inputs.length
        timing_data := s.timing_data ++ inputs.map (fun p => p.2 - t0)
        start_time := some t0 } := by
  induction inputs generalizing s with
  | nil =>
    simp [addFrames, chainFrames, ← hst]
  | cons p rest ih =>
    obtain ⟨f, t⟩ := p
    have step : add_frame sha256 s f t = .ok { s with
        start_time := some t0
        timing_data := s.timing_data ++ [t - t0]
        state := _chain_frame sha256 s.state f s.frame_idx
        frame_idx := s.frame_idx + 1 } := by
      simp [add_frame, hfin, hst]
    have ihs := ih { s with
        start_time := some t0
        timing_data := s.timing_data ++ [t - t0]
        state := _chain_frame sha256 s.state f s.frame_idx
        frame_idx := s.frame_idx + 1 } hfin rfl
    simp only [addFrames, step, ihs]
    simp [chainFrames, Nat.add_assoc, Nat.add_comm 1 rest.length]

/-- The final streamer of a complete run: start time is the first
timestamp, timing entries are relative to it. -/
theorem addFrames_run (sha256 : List Nat → List Nat)
    (device_pub : List Nat) (track_length : Nat)
    (f0 : List Nat) (t0 : ℚ) (rest : List (List Nat × ℚ)) :
    addFrames sha256 ((f0, t0) :: rest)
        (streamerNew sha256 device_pub track_length) = .ok
      { device_pub := device_pub
        track_length := track_length
        state := chainFrames sha256
          (_initialize_tsc_state sha256 device_pub track_length) 0
          (((f0, t0) :: rest).map Prod.fst)
        frame_idx := rest.length + 1
        timing_data := ((f0, t0) :: rest).map (fun p => p.2 - t0)
        start_time := some t0
        finalized := false } := by
  have step : add_frame sha256 (streamerNew sha256 device_pub track_length) f0 t0
      = .ok { streamerNew sha256 device_pub track_length with
              start_time := some t0
              timing_data := [t0 - t0]
              state := _chain_frame sha256
                (_initialize_tsc_state sha256 device_pub track_length) f0 0
              frame_idx := 1 } := by
    simp [add_frame, streamerNew]
  simp only [addFrames, step]
  rw [addFrames_ok sha256 rest _ t0 rfl rfl]
  simp [streamerNew, chainFrames, Nat.add_comm 1 rest.length]

/-- Subtracting a common offset leaves the inter-arrival intervals
unchanged. -/
theorem diffs_map_sub (l : List ℚ) (c : ℚ) :
    diffs (l.map (fun x => x - c)) = diffs l := by
  induction l with
  | nil => rfl
  | cons a l ih =>
    cases l with
    | nil => rfl
    | cons b l =>
      simp only [List.map_cons, diffs] at ih ⊢
      rw [show b - c - (a - c) = b - a by ring, ih]

/-- `_validate_timing` rejects exactly when one of the two interval
fractions exceeds its bound, provided the length bookkeeping matches. -/
theorem validate_timing_error_iff (timing : List ℚ) (expected : Nat)
    (hlen : timing.length = expected) (h2 : 2 ≤ timing.length) :
    (∃ e, _validate_timing timing expected = .error e) ↔
      (1/10 < fracBelow (diffs timing) ∨ 2/10 < fracAbove (diffs timing)) := by
  unfold _validate_timing
  rw [if_neg (by omega), if_neg (by omega)]
  by_cases hfast : 1/10 < fracBelow (diffs timing)
  · rw [if_pos hfast]
    exact ⟨fun _ => Or.inl hfast, fun _ => ⟨_, rfl⟩⟩
  · rw [if_neg hfast]
    by_cases hslow : 2/10 < fracAbove (diffs timing)
    · rw [if_pos hslow]
      exact ⟨fun _ => Or.inr hslow, fun _ => ⟨_, rfl⟩⟩
    · rw [if_neg hslow]
      constructor
      · rintro ⟨e, he⟩
        exact Except.noConfusion he
      · rintro (h | h)
        · exact absurd h hfast
        · exact absurd h hslow

/-- C5: for a streaming run of at least two frames, `finalize` with
timing enforcement errors exactly when more than 10% of the
inter-arrival intervals are below `0.032 × 0.8` or more than 20% exceed
`0.032 × 1.2 × 3`; and `finalize` with `validate_timing = False` never
errors and returns the hash determined by the frame bytes alone. -/
theorem claim_C5_holds (sha256 : List Nat → List Nat)
    (device_pub : List Nat) (track_length : Nat)
    (inputs : List (List Nat × ℚ)) (s : TemporalHashStreamer)
    (_hdp : device_pub.length = 32)
    (hn : 2 ≤ inputs.length)
    (hrun : addFrames sha256 inputs (streamerNew sha256 device_pub track_length)
      = .ok s) :
    ((∃ e, finalize s true = .error e) ↔
      (1/10 < fracBelow (diffs (inputs.map Prod.snd))
        ∨ 2/10 < fracAbove (diffs (inputs.map Prod.snd))))
    ∧ finalize s false = .ok
        (chainFrames sha256
          (_initialize_tsc_state sha256 device_pub track_length) 0
          (inputs.map Prod.fst),
        { s with finalized := true }) := by
  match inputs, hn with
  | (f0, t0) :: rest, hn =>
    rw [addFrames_run sha256 device_pub track_length f0 t0 rest] at hrun
    injection hrun with hrun
    subst hrun
    have hdiffs : diffs ((((f0, t0) :: rest)).map (fun p => p.2 - t0))
        = diffs (((f0, t0) :: rest).map Prod.snd) := by
      have : (((f0, t0) :: rest)).map (fun p => p.2 - t0)
          = (((f0, t0) :: rest).map Prod.snd).map (fun x => x - t0) := by
        simp
      rw [this, diffs_map_sub]
    have hlen2 : 2 ≤ (((f0, t0) :: rest).map (fun p : List Nat × ℚ => p.2 - t0)).length := by
      simpa using hn
    constructor
    · have hval := validate_timing_error_iff
        (((f0, t0) :: rest).map (fun p => p.2 - t0)) (rest.length + 1)
        (by simp) (by simpa using hn)
      rw [hdiffs] at hval
      rw [← hval]
      unfold finalize
      simp only [show (2 : Nat) ≤ rest.length + 2 from by omega]
      have hgt : (1 < (((f0, t0) :: rest).map (fun p : List Nat × ℚ => p.2 - t0)).length) := by
        simpa using hn
      simp only [if_neg (by simp : ¬ (false = true)), Bool.true_and, decide_eq_true hgt]
      cases hv : _validate_timing
          (((f0, t0) :: rest).map (fun p : List Nat × ℚ => p.2 - t0))
          (rest.length + 1) with
      | error e => simp [hv]
      | ok _ => simp [hv]
    · unfold finalize
      simp

/-- The streamer state after the concrete two-frame run used as the C5
witness (both frames arrive at time 0, with a constant hash model). -/
def tscW : TemporalHashStreamer :=
  { device_pub := List.replicate 32 0
    track_length := 100
    state := chainFrames (fun _ => [])
      (_initialize_tsc_state (fun _ => []) (List.replicate 32 0) 100) 0 [[1], [2]]
    frame_idx := 2
    timing_data := [0, 0]
    start_time := some 0
    finalized := false }

/-- Witness for C5: the `validate_timing = False` conjunct at a concrete
two-frame run. -/
theorem claim_C5_witness :
    finalize tscW false = .ok
      (chainFrames (fun _ => [])
        (_initialize_tsc_state (fun _ => []) (List.replicate 32 0) 100) 0 [[1], [2]],
      { tscW with finalized := true }) :=
  (claim_C5_holds (fun _ => []) (List.replicate 32 0) 100 [([1], 0), ([2], 0)] tscW
      (by simp) (by norm_num)
      (by rw [addFrames_run]; simp [tscW])).2

/-- C9: `finalize` is idempotent — a finalized streamer returns its
stored hash with no state change and no re-validation — and atomic on
error — a failed `finalize` leaves the streamer unchanged (the model
returns no post-state on error precisely because the Python method
raises before any assignment), so a later `finalize(validate_timing=
False)` succeeds with the hash of the same frame sequence. -/
theorem claim_C9_holds (s : TemporalHashStreamer) (b : Bool) :
    (s.finalized = true → finalize s b = .ok (s.state, s))
    ∧ (∀ hash s2, finalize s b = .ok (hash, s2) →
        hash = s.state ∧ ∀ b2, finalize s2 b2 = .ok (s.state, s2))
    ∧ (∀ e, finalize s true = .error e →
        finalize s false = .ok (s.state, { s with finalized := true })) := by
  refine ⟨fun hf => by simp [finalize, hf], ?_, ?_⟩
  · intro hash s2 hok
    unfold finalize at hok
    split at hok
    case isTrue hf =>
      injection hok with hok
      have h1 : hash = s.state := (congrArg Prod.fst hok).symm
      have h2 : s2 = s := (congrArg Prod.snd hok).symm
      subst h1 h2
      exact ⟨rfl, fun b2 => by simp [finalize, hf]⟩
    case isFalse hf =>
      split at hok
      · cases hv : _validate_timing s.timing_data s.frame_idx with
        | error e => simp [hv] at hok
        | ok u =>
          simp only [hv] at hok
          injection hok with hok
          have h1 : hash = s.state := (congrArg Prod.fst hok).symm
          have h2 : s2 = { s with finalized := true } := (congrArg Prod.snd hok).symm
          subst h1 h2
          exact ⟨rfl, fun b2 => by simp [finalize]⟩
      · injection hok with hok
        have h1 : hash = s.state := (congrArg Prod.fst hok).symm
        have h2 : s2 = { s with finalized := true } := (congrArg Prod.snd hok).symm
        subst h1 h2
        exact ⟨rfl, fun b2 => by simp [finalize]⟩
  · intro e herr
    unfold finalize at herr
    split at herr
    case isTrue hf => exact Except.noConfusion herr
    case isFalse hf =>
      simp [finalize, hf]

/-- Witness for C9: the idempotence conjunct at a concrete finalized
streamer. -/
theorem claim_C9_witness :
    finalize ⟨List.replicate 32 0, 5, [9], 1, [0], some 0, true⟩ true
      = .ok ([9], ⟨List.replicate 32 0, 5, [9], 1, [0], some 0, true⟩) :=
  (claim_C9_holds ⟨List.replicate 32 0, 5, [9], 1, [0], some 0, true⟩ true).1 rfl

/-!
## ritual_certificates.py — certificate verification (claim C6)

Source: `src/echotome/ritual_certificates.py`, lines 23-130 (the data
model) and 295-339 (`verify_ritual_certificate`), together with
`verify_signature` from `identity_keys.py` (225-246), which is itself a
total boolean.  `base64.b64decode` (which raises on malformed input —
the exception the enclosing `try` turns into `False`) is modelled as an
arbitrary partial function `b64decode`; Ed25519 verification as an
arbitrary boolean predicate `verifySig`; and the canonical sorted-key
JSON `payload.to_bytes()` as an arbitrary total function `toBytes` of
the payload (serialization is total on this well-typed payload record).
The theorem holds for every choice of these three library parameters.
-/

/-- `RitualTrack` (ritual_certificates.py:23-45). -/
structure RitualTrack where
  audio_hash : String
  active_start : Int
  active_end : Int
  riv : String
  temporal_hash : Option String
  track_length : Option Int
  deriving DecidableEq

/-- `RitualCertificatePayload` (ritual_certificates.py:48-130). -/
structure RitualCertificatePayload where
  version : String
  owner_pub : String
  rune_id : String
  profile : String
  created_at : ℚ
  audio_hash : Option String
  active_start : Option Int
  active_end : Option Int
  temporal_hash : Option String
  track_length : Option Int
  tracks : Option (List RitualTrack)
  deriving DecidableEq

/-- `RitualCertificate` (ritual_certificates.py:133-147). -/
structure RitualCertificate where
  payload : RitualCertificatePayload
  signature : String
  deriving DecidableEq

/-- `verify_ritual_certificate` (ritual_certificates.py:295-339).  The
`try` block is modelled by the `Option` results of `b64decode`: Python
reaches `except Exception: return False` exactly when a decode raises,
and the function returns a boolean on every input. -/
def verify_ritual_certificate
    (b64decode : String → Option (List Nat))
    (verifySig : (data : List Nat) → (signature : List Nat) →
      (public_key : List Nat) → Bool)
    (toBytes : RitualCertificatePayload → List Nat)
    (cert : RitualCertificate)
    (expected_audio_hash : Option String)
    (allowed_pub_keys : Option (List (List Nat))) : Bool :=
  match b64decode cert.signature with
  | none => false
  | some signature_bytes =>
    match b64decode cert.payload.owner_pub with
    | none => false
    | some owner_pub_bytes =>
      if !verifySig (toBytes cert.payload) signature_bytes owner_pub_bytes then
        false
      else if (match expected_audio_hash with
              | some h => decide (cert.payload.audio_hash ≠ some h)
              | none => false) then
        false
      else if (match allowed_pub_keys with
              | some keys => decide (owner_pub_bytes ∉ keys)
              | none => false) then
        false
      else
        true

/-- C6: `verify_ritual_certificate` is a total boolean — in particular
it returns `False` whenever a base64 decode of the signature or of the
owner key fails — and it returns `True` exactly when both decodes
succeed, the Ed25519 signature verifies over the canonical payload
bytes against the payload's own `owner_pub`, and the optional expected
audio hash and allow-list checks pass. -/
theorem claim_C6_holds
    (b64decode : String → Option (List Nat))
    (verifySig : List Nat → List Nat → List Nat → Bool)
    (toBytes : RitualCertificatePayload → List Nat)
    (cert : RitualCertificate)
    (expected_audio_hash : Option String)
    (allowed_pub_keys : Option (List (List Nat))) :
    verify_ritual_certificate b64decode verifySig toBytes cert
        expected_audio_hash allowed_pub_keys = true ↔
      (∃ signature_bytes owner_pub_bytes,
        b64decode cert.signature = some signature_bytes
        ∧ b64decode cert.payload.owner_pub = some owner_pub_bytes
        ∧ verifySig (toBytes cert.payload) signature_bytes owner_pub_bytes = true
        ∧ (∀ h, expected_audio_hash = some h → cert.payload.audio_hash = some h)
        ∧ (∀ keys, allowed_pub_keys = some keys → owner_pub_bytes ∈ keys)) := by
  unfold verify_ritual_certificate
  cases hsig : b64decode cert.signature with
  | none => simp [hsig]
  | some sb =>
    cases hpub : b64decode cert.payload.owner_pub with
    | none => simp [hsig, hpub]
    | some pb =>
      simp only [hsig, hpub]
      by_cases hv : verifySig (toBytes cert.payload) sb pb
      · cases expected_audio_hash with
        | none =>
          cases allowed_pub_keys with
          | none => simp [hv]
          | some keys =>
            by_cases hk : pb ∈ keys
            · simp [hv, hk]
            · simp [hv, hk]
        | some h =>
          by_cases ha : cert.payload.audio_hash = some h
          · cases allowed_pub_keys with
            | none => simp [hv, ha]
            | some keys =>
              by_cases hk : pb ∈ keys
              · simp [hv, ha, hk]
              · simp [hv, ha, hk]
          · simp [hv, ha]
      · simp [hv]

/-!
## stego.py — LSB steganography (claim C7)

Source: `src/echotome/stego.py`.  An RGB/RGBA raster is its flat
row-major channel list (`np.array(image)` iterated y, x, c exactly as
the source loops do), entries being uint8 values below 256.  The
`json.dumps`/`json.loads` pair the reader and writer call is a library
codec and is modelled as a parameter bundle with its documented
round-trip contract.  `_embed_bytes`'s triple loop writes the message
bits two per channel, most-significant first, returning early when the
bits run out; `_extract_bytes`'s triple loop skips `byte_offset*8` bits
(four channels per byte) and then collects `num_bytes*8` bits; both are
rendered as structural recursions over the flat channel list.
-/

/-- `STEGO_MARKER` (stego.py:12). -/
def STEGO_MARKER : List Nat := utf8 "ECHOTOME_V3"

/-- `BITS_PER_CHANNEL` (stego.py:14). -/
def BITS_PER_CHANNEL : Nat := 2

/-- `_bytes_to_bits` (stego.py:228-242): most-significant bit first. -/
def _bytes_to_bits (data : List Nat) : List Nat :=
  data.flatMap (fun byte => (List.range 8).map (fun i => byte >>> (7 - i) &&& 1))

/-- The inner fold of `_bits_to_bytes`: `byte = (byte << 1) | bit`. -/
def byteFromBits (bits : List Nat) : Nat :=
  bits.foldl (fun byte bit => (byte <<< 1) ||| bit) 0

/-- `_bits_to_bytes` (stego.py:245-266): zero-pad to a multiple of 8,
then fold each 8-bit group into a byte. -/
def _bits_to_bytes : List Nat → List Nat
  | b0 :: b1 :: b2 :: b3 :: b4 :: b5 :: b6 :: b7 :: rest =>
      byteFromBits [b0, b1, b2, b3, b4, b5, b6, b7] :: _bits_to_bytes rest
  | [] => []
  | bits => [byteFromBits (bits ++ List.replicate (8 - bits.length) 0)]

/-- The loop body of `_embed_bytes` (stego.py:147-166) over the flat
channel list: each channel keeps its high six bits
(`pixel & ((0xFF << 2) & 0xFF)` = `pixel & 252`) and takes the next two
message bits, most-significant first; when a single bit remains it
lands in the higher of the two cleared positions, and once the bits are
exhausted the remaining channels are returned unchanged. -/
def embedChannels : List Nat → List Nat → List Nat
  | img, [] => img
  | [], _ => []
  | v :: img, b1 :: b2 :: bits =>
      ((v &&& 252) ||| ((b1 <<< 1) ||| b2)) :: embedChannels img bits
  | v :: img, [b1] => ((v &&& 252) ||| (b1 <<< 1)) :: embedChannels img []

/-- `_embed_bytes` (stego.py:122-168). -/
def _embed_bytes (img_array : List Nat) (message : List Nat) : List Nat :=
  embedChannels img_array (_bytes_to_bits message)

/-- `struct.pack(">I", n)`. -/
def packU32BE (n : Nat) : List Nat :=
  [n >>> 24 % 256, n >>> 16 % 256, n >>> 8 % 256, n % 256]

/-- `struct.unpack(">I", bs)[0]`. -/
def unpackU32BE (bs : List Nat) : Nat :=
  bs.foldl (fun acc b => acc * 256 + b) 0

/-- `embed_payload_in_png` (stego.py:17-71) at the byte level: message
`MARKER ‖ u32_be(len) ‖ payload`, rejected when longer than
`H·W·C·BITS_PER_CHANNEL // 8` bytes. -/
def embed_payload_in_png (img_array : List Nat) (payload_bytes : List Nat) :
    Except String (List Nat) :=
  let message := STEGO_MARKER ++ packU32BE payload_bytes.length ++ payload_bytes
  let capacity_bytes := img_array.length * BITS_PER_CHANNEL / 8
  if capacity_bytes < message.length then .error "Payload too large"
  else .ok (_embed_bytes img_array message)

/-- The two LSBs of a channel, most-significant first (the inner `for b
in range(bits_per_channel)` of `_extract_bytes`). -/
def channelBits (v : Nat) : List Nat := [(v >>> 1) &&& 1, v &&& 1]

/-- `_extract_bytes` (stego.py:171-225): skip `byte_offset*8` bits —
four whole channels per byte — then collect `num_bytes*8` bits, two per
channel, and regroup them into bytes. -/
def _extract_bytes (img_array : List Nat) (byte_offset num_bytes : Nat) :
    List Nat :=
  _bits_to_bytes
    (((img_array.drop (byte_offset * 4)).flatMap channelBits).take (num_bytes * 8))

/-- `extract_payload_from_png` (stego.py:74-119) at the byte level:
`.ok none` is the "no embedded payload" return, the error is the
`payload_len > 1_000_000` ValueError; JSON decoding is layered on top
by `extract_payload`. -/
def extract_payload_from_png (img_array : List Nat) :
    Except String (Option (List Nat)) :=
  let marker := _extract_bytes img_array 0 STEGO_MARKER.length
  if marker ≠ STEGO_MARKER then .ok none
  else
    let len_bytes := _extract_bytes img_array STEGO_MARKER.length 4
    let payload_len := unpackU32BE len_bytes
    if 1000000 < payload_len then .error "Invalid payload length"
    else .ok (some (_extract_bytes img_array (STEGO_MARKER.length + 4) payload_len))

/-- The documented contract of `json.dumps`/`json.loads` on
JSON-serializable payload values: serialization is a byte string that
deserializes back to the same value. -/
structure JsonCodec (α : Type) where
  dumps : α → List Nat
  loads : List Nat → Option α
  loads_dumps : ∀ a, loads (dumps a) = some a
  dumps_lt : ∀ a, ∀ b ∈ dumps a, b < 256

/-- `embed_payload_in_png` applied to `json.dumps(payload)`. -/
def embed_payload {α : Type} (c : JsonCodec α) (img_array : List Nat)
    (payload : α) : Except String (List Nat) :=
  embed_payload_in_png img_array (c.dumps payload)

/-- `extract_payload_from_png` followed by the reader's JSON decode
(whose failure is the "Failed to decode payload" ValueError). -/
def extract_payload {α : Type} (c : JsonCodec α) (img_array : List Nat) :
    Except String (Option α) :=
  match extract_payload_from_png img_array with
  | .error e => .error e
  | .ok none => .ok none
  | .ok (some payload_bytes) =>
    match c.loads payload_bytes with
    | some payload => .ok (some payload)
    | none => .error "Failed to decode payload"

theorem bytesToBits_append (a b : List Nat) :
    _bytes_to_bits (a ++ b) = _bytes_to_bits a ++ _bytes_to_bits b := by
  simp [_bytes_to_bits]

theorem bytesToBits_length (m : List Nat) :
    (_bytes_to_bits m).length = 8 * m.length := by
  induction m with
  | nil => rfl
  | cons b m ih =>
    simp only [_bytes_to_bits, List.flatMap_cons, List.length_append,
      List.length_map, List.length_range, List.length_cons] at ih ⊢
    omega

theorem bytesToBits_le_one (m : List Nat) : ∀ b ∈ _bytes_to_bits m, b ≤ 1 := by
  intro b hb
  simp only [_bytes_to_bits, List.mem_flatMap, List.mem_map, List.mem_range] at hb
  obtain ⟨x, _, i, _, rfl⟩ := hb
  exact Nat.and_le_right

set_option maxRecDepth 4096 in
theorem byteFromBits_bits : ∀ b < 256,
    byteFromBits [b >>> 7 &&& 1, b >>> 6 &&& 1, b >>> 5 &&& 1, b >>> 4 &&& 1,
      b >>> 3 &&& 1, b >>> 2 &&& 1, b >>> 1 &&& 1, b >>> 0 &&& 1] = b := by
  decide

theorem bitsToBytes_bytesToBits (m : List Nat) (hm : ∀ b ∈ m, b < 256) :
    _bits_to_bytes (_bytes_to_bits m) = m := by
  induction m with
  | nil => rfl
  | cons b m ih =>
    have hsplit : _bytes_to_bits (b :: m)
        = [b >>> 7 &&& 1, b >>> 6 &&& 1, b >>> 5 &&& 1, b >>> 4 &&& 1,
            b >>> 3 &&& 1, b >>> 2 &&& 1, b >>> 1 &&& 1, b >>> 0 &&& 1]
          ++ _bytes_to_bits m := by
      simp [_bytes_to_bits]
      rfl
    rw [hsplit]
    simp only [List.cons_append, List.nil_append]
    rw [_bits_to_bytes]
    rw [byteFromBits_bits b (hm b (by simp)), ih (fun x hx => hm x (by simp [hx]))]

theorem embedChannels_nil_bits (img : List Nat) : embedChannels img [] = img := by
  cases img <;> rfl

theorem embedChannels_nil_img (bits : List Nat) : embedChannels [] bits = [] := by
  cases bits <;> rfl

theorem embedChannels_cons2 (v : Nat) (img : List Nat) (b1 b2 : Nat)
    (bits : List Nat) :
    embedChannels (v :: img) (b1 :: b2 :: bits)
      = ((v &&& 252) ||| ((b1 <<< 1) ||| b2)) :: embedChannels img bits := rfl

theorem embedChannels_cons1 (v : Nat) (img : List Nat) (b1 : Nat) :
    embedChannels (v :: img) [b1]
      = ((v &&& 252) ||| (b1 <<< 1)) :: embedChannels img [] := rfl

set_option maxRecDepth 8192 in
theorem embed_value_k : ∀ v < 256, ∀ k < 4, ((v &&& 252) ||| k) = 4 * (v / 4) + k := by
  decide

theorem shiftOr_val : ∀ b1 < 2, ∀ b2 < 2, ((b1 <<< 1) ||| b2) = 2 * b1 + b2 := by
  decide

theorem shift1_val : ∀ b1 < 2, b1 <<< 1 = 2 * b1 := by
  decide

theorem channelBits_val (x : Nat) : channelBits x = [x / 2 % 2, x % 2] := by
  simp [channelBits, Nat.shiftRight_eq_div_pow, Nat.and_one_is_mod]

theorem channelBits_embed (v b1 b2 : Nat) (hv : v < 256) (h1 : b1 ≤ 1)
    (h2 : b2 ≤ 1) :
    channelBits ((v &&& 252) ||| ((b1 <<< 1) ||| b2)) = [b1, b2] := by
  rw [shiftOr_val b1 (by omega) b2 (by omega),
    embed_value_k v hv (2 * b1 + b2) (by omega), channelBits_val]
  have e1 : (4 * (v / 4) + (2 * b1 + b2)) / 2 % 2 = b1 := by omega
  have e2 : (4 * (v / 4) + (2 * b1 + b2)) % 2 = b2 := by omega
  rw [e1, e2]

theorem flatMap_channelBits_embed (img : List Nat) :
    ∀ bits : List Nat, (∀ v ∈ img, v < 256) → (∀ b ∈ bits, b ≤ 1) →
    bits.length % 2 = 0 → bits.length ≤ 2 * img.length →
    ((embedChannels img bits).flatMap channelBits).take bits.length = bits := by
  induction img with
  | nil =>
    intro bits _ _ _ hlen
    have hb : bits = [] := List.eq_nil_of_length_eq_zero (by simpa using hlen)
    subst hb
    rfl
  | cons v img ih =>
    intro bits himg hb heven hlen
    cases bits with
    | nil => simp [embedChannels_nil_bits]
    | cons b1 rest =>
      cases rest with
      | nil => simp at heven
      | cons b2 bits =>
        rw [embedChannels_cons2]
        have hcb := channelBits_embed v b1 b2 (himg v (by simp))
          (hb b1 (by simp)) (hb b2 (by simp))
        simp only [List.flatMap_cons, hcb, List.cons_append, List.nil_append,
          List.length_cons, List.take_succ_cons]
        rw [ih bits (fun x hx => himg x (by simp [hx]))
          (fun x hx => hb x (by simp [hx]))
          (by simp at heven; omega) (by simp at hlen; omega)]

theorem embedChannels_drop (k : Nat) :
    ∀ img bits : List Nat, 2 * k ≤ bits.length →
    (embedChannels img bits).drop k = embedChannels (img.drop k) (bits.drop (2 * k)) := by
  induction k with
  | zero => intro img bits _; simp
  | succ k ih =>
    intro img bits hk
    cases img with
    | nil =>
      cases bits <;> simp [embedChannels_nil_img, embedChannels_nil_bits]
    | cons v img =>
      cases bits with
      | nil => simp at hk
      | cons b1 rest =>
        cases rest with
        | nil => simp at hk; omega
        | cons b2 bits =>
          rw [embedChannels_cons2, List.drop_succ_cons]
          have h2 : 2 * k ≤ bits.length := by simp at hk; omega
          rw [ih img bits h2, List.drop_succ_cons]
          have he : 2 * (k + 1) = 2 * k + 1 + 1 := by ring
          rw [he, List.drop_succ_cons, List.drop_succ_cons]

theorem bytesToBits_cons (b : Nat) (m : List Nat) :
    _bytes_to_bits (b :: m)
      = [b >>> 7 &&& 1, b >>> 6 &&& 1, b >>> 5 &&& 1, b >>> 4 &&& 1,
          b >>> 3 &&& 1, b >>> 2 &&& 1, b >>> 1 &&& 1, b >>> 0 &&& 1]
        ++ _bytes_to_bits m := by
  simp [_bytes_to_bits]
  rfl

theorem bytesToBits_drop (k : Nat) :
    ∀ m : List Nat, (_bytes_to_bits m).drop (8 * k) = _bytes_to_bits (m.drop k) := by
  induction k with
  | zero => intro m; simp
  | succ k ih =>
    intro m
    cases m with
    | nil => simp [_bytes_to_bits]
    | cons b m =>
      rw [bytesToBits_cons, show 8 * (k + 1)
          = List.length [b >>> 7 &&& 1, b >>> 6 &&& 1, b >>> 5 &&& 1,
              b >>> 4 &&& 1, b >>> 3 &&& 1, b >>> 2 &&& 1, b >>> 1 &&& 1,
              b >>> 0 &&& 1] + 8 * k from by simp; omega]
      rw [List.drop_append]
      exact ih m

theorem bytesToBits_take (n : Nat) :
    ∀ m : List Nat, (_bytes_to_bits m).take (8 * n) = _bytes_to_bits (m.take n) := by
  induction n with
  | zero => intro m; simp [_bytes_to_bits]
  | succ n ih =>
    intro m
    cases m with
    | nil => simp [_bytes_to_bits]
    | cons b m =>
      rw [bytesToBits_cons, show 8 * (n + 1)
          = List.length [b >>> 7 &&& 1, b >>> 6 &&& 1, b >>> 5 &&& 1,
              b >>> 4 &&& 1, b >>> 3 &&& 1, b >>> 2 &&& 1, b >>> 1 &&& 1,
              b >>> 0 &&& 1] + 8 * n from by simp; omega]
      rw [List.take_append, ih m, ← bytesToBits_cons]
      rfl

theorem embedChannels_length (img : List Nat) :
    ∀ bits : List Nat, (embedChannels img bits).length = img.length := by
  induction img with
  | nil => intro bits; rw [embedChannels_nil_img]
  | cons v img ih =>
    intro bits
    cases bits with
    | nil => rw [embedChannels_nil_bits]
    | cons b1 rest =>
      cases rest with
      | nil => rw [embedChannels_cons1, embedChannels_nil_bits]; simp
      | cons b2 bits => rw [embedChannels_cons2]; simp [ih]

theorem embed_value_div4 (v k : Nat) (hv : v < 256) (hk : k < 4) :
    ((v &&& 252) ||| k) / 4 = v / 4 := by
  rw [embed_value_k v hv k hk]
  omega

theorem embedChannels_getD_div4 (img : List Nat) :
    ∀ (bits : List Nat) (i : Nat), (∀ v ∈ img, v < 256) → (∀ b ∈ bits, b ≤ 1) →
    (embedChannels img bits).getD i 0 / 4 = img.getD i 0 / 4 := by
  induction img with
  | nil => intro bits i _ _; rw [embedChannels_nil_img]
  | cons v img ih =>
    intro bits i himg hb
    cases bits with
    | nil => rw [embedChannels_nil_bits]
    | cons b1 rest =>
      cases rest with
      | nil =>
        rw [embedChannels_cons1, embedChannels_nil_bits]
        cases i with
        | zero =>
          simp only [List.getD_cons_zero]
          refine embed_value_div4 v _ (himg v (by simp)) ?_
          have h1 := hb b1 (by simp)
          rw [shift1_val b1 (by omega)]
          omega
        | succ i => simp [List.getD_cons_succ]
      | cons b2 bits =>
        rw [embedChannels_cons2]
        cases i with
        | zero =>
          simp only [List.getD_cons_zero]
          refine embed_value_div4 v _ (himg v (by simp)) ?_
          have h1 := hb b1 (by simp)
          have h2 := hb b2 (by simp)
          rw [shiftOr_val b1 (by omega) b2 (by omega)]
          omega
        | succ i =>
          simp only [List.getD_cons_succ]
          exact ih bits i (fun x hx => himg x (by simp [hx]))
            (fun x hx => hb x (by simp [hx]))

theorem embedChannels_getD_tail (img : List Nat) :
    ∀ (bits : List Nat) (i : Nat), (bits.length + 1) / 2 ≤ i →
    (embedChannels img bits).getD i 0 = img.getD i 0 := by
  induction img with
  | nil => intro bits i _; rw [embedChannels_nil_img]
  | cons v img ih =>
    intro bits i hi
    cases bits with
    | nil => rw [embedChannels_nil_bits]
    | cons b1 rest =>
      cases rest with
      | nil =>
        rw [embedChannels_cons1, embedChannels_nil_bits]
        cases i with
        | zero => simp at hi
        | succ i => simp [List.getD_cons_succ]
      | cons b2 bits =>
        rw [embedChannels_cons2]
        cases i with
        | zero => simp only [List.length_cons] at hi; omega
        | succ i =>
          simp only [List.getD_cons_succ]
          refine ih bits i ?_
          simp only [List.length_cons] at hi
          omega

theorem unpack_packU32BE (n : Nat) (h : n < 4294967296) :
    unpackU32BE (packU32BE n) = n := by
  simp only [unpackU32BE, packU32BE, List.foldl_cons, List.foldl_nil,
    Nat.shiftRight_eq_div_pow]
  have e24 : (2 : Nat) ^ 24 = 16777216 := by norm_num
  have e16 : (2 : Nat) ^ 16 = 65536 := by norm_num
  have e8 : (2 : Nat) ^ 8 = 256 := by norm_num
  rw [e24, e16, e8]
  omega

/-- Reading any byte range of the embedded message back out of the
stego image returns that slice of the message. -/
theorem extract_bytes_embed (img message : List Nat) (o n : Nat)
    (himg : ∀ v ∈ img, v < 256) (hmsg : ∀ b ∈ message, b < 256)
    (hon : o + n ≤ message.length)
    (hcap : message.length ≤ img.length * BITS_PER_CHANNEL / 8) :
    _extract_bytes (_embed_bytes img message) o n = (message.drop o).take n := by
  have h8L : (_bytes_to_bits message).length = 8 * message.length :=
    bytesToBits_length message
  have hLimg : 8 * message.length ≤ 2 * img.length := by
    have h1 : message.length ≤ img.length * 2 / 8 := by
      simpa [BITS_PER_CHANNEL] using hcap
    have h2 : img.length * 2 / 8 * 8 ≤ img.length * 2 := Nat.div_mul_le_self _ _
    omega
  unfold _extract_bytes _embed_bytes
  rw [embedChannels_drop (o * 4) img (_bytes_to_bits message) (by omega)]
  rw [show 2 * (o * 4) = 8 * o from by ring, bytesToBits_drop o message]
  have hdlen : (_bytes_to_bits (message.drop o)).length = 8 * (message.length - o) := by
    rw [bytesToBits_length]
    simp
  have hfull : ((embedChannels (img.drop (o * 4))
        (_bytes_to_bits (message.drop o))).flatMap channelBits).take
          ((_bytes_to_bits (message.drop o)).length)
      = _bytes_to_bits (message.drop o) := by
    refine flatMap_channelBits_embed (img.drop (o * 4)) _
      (fun v hv => himg v (List.drop_subset _ _ hv))
      (bytesToBits_le_one _) (by omega) ?_
    simp only [List.length_drop]
    omega
  have hn8 : n * 8 ≤ (_bytes_to_bits (message.drop o)).length := by omega
  have hstep : ((embedChannels (img.drop (o * 4))
        (_bytes_to_bits (message.drop o))).flatMap channelBits).take (n * 8)
      = (_bytes_to_bits (message.drop o)).take (n * 8) := by
    conv_lhs => rw [show n * 8 = min (n * 8)
      ((_bytes_to_bits (message.drop o)).length) from (Nat.min_eq_left hn8).symm]
    rw [← List.take_take, hfull]
  rw [hstep, show n * 8 = 8 * n from by ring, bytesToBits_take n (message.drop o)]
  exact bitsToBytes_bytesToBits _
    (fun b hb => hmsg b (List.drop_subset _ _ (List.take_subset _ _ hb)))

/-- C7 (amended): the byte-level stego round trip.  For a carrier whose
capacity covers the 15-byte header plus the payload encoding, and a
payload whose JSON encoding is at most 1,000,000 bytes, embedding
succeeds, extraction returns exactly the payload, the output has the
carrier's length, every channel beyond the message region is unchanged,
and every channel keeps its upper six bits. -/
theorem claim_C7_holds {α : Type} (c : JsonCodec α) (img : List Nat) (P : α)
    (himg : ∀ v ∈ img, v < 256)
    (hcap : 15 + (c.dumps P).length ≤ img.length * BITS_PER_CHANNEL / 8)
    (hmax : (c.dumps P).length ≤ 1000000) :
    ∃ embedded,
      embed_payload c img P = .ok embedded
      ∧ extract_payload c embedded = .ok (some P)
      ∧ embedded.length = img.length
      ∧ (∀ i, 4 * (15 + (c.dumps P).length) ≤ i →
          embedded.getD i 0 = img.getD i 0)
      ∧ (∀ i, embedded.getD i 0 / 4 = img.getD i 0 / 4) := by
  have hml : (STEGO_MARKER ++ packU32BE (c.dumps P).length ++ c.dumps P).length
      = 15 + (c.dumps P).length := by
    simp only [List.length_append]
    rw [show STEGO_MARKER.length = 11 from by decide,
      show (packU32BE (c.dumps P).length).length = 4 from rfl]
  have hmsg : ∀ b ∈ STEGO_MARKER ++ packU32BE (c.dumps P).length ++ c.dumps P,
      b < 256 := by
    intro b hb
    rcases List.mem_append.mp hb with h | h
    · exact by
        rcases List.mem_append.mp h with h1 | h1
        · revert h1
          have : ∀ b ∈ STEGO_MARKER, b < 256 := by decide
          exact this b
        · simp only [packU32BE, List.mem_cons, List.not_mem_nil, or_false] at h1
          rcases h1 with rfl | rfl | rfl | rfl <;> exact Nat.mod_lt _ (by omega)
    · exact c.dumps_lt P b h
  have h11 : STEGO_MARKER.length = 11 := by decide
  have hcap2 : (STEGO_MARKER ++ packU32BE (c.dumps P).length ++ c.dumps P).length
      ≤ img.length * BITS_PER_CHANNEL / 8 := by rw [hml]; omega
  refine ⟨_embed_bytes img
    (STEGO_MARKER ++ packU32BE (c.dumps P).length ++ c.dumps P), ?_, ?_, ?_, ?_, ?_⟩
  · show (if img.length * BITS_PER_CHANNEL / 8
        < (STEGO_MARKER ++ packU32BE (c.dumps P).length ++ c.dumps P).length then
          (.error "Payload too large" : Except String (List Nat))
        else .ok (_embed_bytes img
          (STEGO_MARKER ++ packU32BE (c.dumps P).length ++ c.dumps P)))
      = .ok (_embed_bytes img
          (STEGO_MARKER ++ packU32BE (c.dumps P).length ++ c.dumps P))
    rw [if_neg (by rw [hml]; omega)]
  · have hmarker : _extract_bytes (_embed_bytes img
        (STEGO_MARKER ++ packU32BE (c.dumps P).length ++ c.dumps P)) 0
          STEGO_MARKER.length = STEGO_MARKER := by
      rw [extract_bytes_embed img _ 0 STEGO_MARKER.length himg hmsg
        (by rw [hml, h11]; omega) hcap2]
      rw [List.drop_zero, List.append_assoc]
      exact List.take_left' rfl
    have hlenb : _extract_bytes (_embed_bytes img
        (STEGO_MARKER ++ packU32BE (c.dumps P).length ++ c.dumps P))
          STEGO_MARKER.length 4 = packU32BE (c.dumps P).length := by
      rw [extract_bytes_embed img _ STEGO_MARKER.length 4 himg hmsg
        (by rw [hml, h11]; omega) hcap2]
      rw [List.append_assoc, List.drop_left' rfl]
      exact List.take_left' rfl
    have hpayl : _extract_bytes (_embed_bytes img
        (STEGO_MARKER ++ packU32BE (c.dumps P).length ++ c.dumps P))
          (STEGO_MARKER.length + 4) (c.dumps P).length = c.dumps P := by
      rw [extract_bytes_embed img _ (STEGO_MARKER.length + 4) (c.dumps P).length
        himg hmsg (by rw [hml, h11]) hcap2]
      rw [List.drop_left' (by simp [packU32BE]), List.take_length]
    have hext : extract_payload_from_png (_embed_bytes img
        (STEGO_MARKER ++ packU32BE (c.dumps P).length ++ c.dumps P))
        = .ok (some (c.dumps P)) := by
      show (if _extract_bytes (_embed_bytes img
            (STEGO_MARKER ++ packU32BE (c.dumps P).length ++ c.dumps P)) 0
              STEGO_MARKER.length ≠ STEGO_MARKER then
          (.ok none : Except String (Option (List Nat)))
        else if 1000000 < unpackU32BE (_extract_bytes (_embed_bytes img
            (STEGO_MARKER ++ packU32BE (c.dumps P).length ++ c.dumps P))
              STEGO_MARKER.length 4) then .error "Invalid payload length"
        else .ok (some (_extract_bytes (_embed_bytes img
            (STEGO_MARKER ++ packU32BE (c.dumps P).length ++ c.dumps P))
              (STEGO_MARKER.length + 4) (unpackU32BE (_extract_bytes (_embed_bytes img
                (STEGO_MARKER ++ packU32BE (c.dumps P).length ++ c.dumps P))
                  STEGO_MARKER.length 4)))))
        = .ok (some (c.dumps P))
      rw [hmarker, if_neg (by simp), hlenb, unpack_packU32BE _ (by omega),
        if_neg (by omega), hpayl]
    unfold extract_payload
    rw [hext]
    show (match c.loads (c.dumps P) with
      | some payload => (Except.ok (some payload) : Except String (Option α))
      | none => Except.error "Failed to decode payload") = Except.ok (some P)
    rw [c.loads_dumps P]
  · exact embedChannels_length img _
  · intro i hi
    refine embedChannels_getD_tail img _ i ?_
    rw [bytesToBits_length, hml]
    omega
  · intro i
    exact embedChannels_getD_div4 img _ i himg (bytesToBits_le_one _)

/-- A concrete codec for witnesses: the payload value `n` encodes as
`n` copies of byte 48 (standing for a JSON dict with one long string
field, whose encoded length is `n`). -/
def byteCodec : JsonCodec Nat :=
  { dumps := fun n => List.replicate n 48
    loads := fun bs => some bs.length
    loads_dumps := fun a => by simp
    dumps_lt := fun a b hb => by
      rcases List.eq_of_mem_replicate hb with rfl
      omega }

/-- Witness for C7 on a 64-channel carrier of value 7 with a one-byte
payload. -/
theorem claim_C7_witness :
    ∃ embedded,
      embed_payload byteCodec (List.replicate 64 7) 1 = .ok embedded
      ∧ extract_payload byteCodec embedded = .ok (some 1)
      ∧ embedded.length = (List.replicate 64 7).length
      ∧ (∀ i, 4 * (15 + (byteCodec.dumps 1).length) ≤ i →
          embedded.getD i 0 = (List.replicate 64 7).getD i 0)
      ∧ (∀ i, embedded.getD i 0 / 4 = (List.replicate 64 7).getD i 0 / 4) :=
  claim_C7_holds byteCodec (List.replicate 64 7) 1 (by decide) (by decide)
    (by decide)

/-- The carrier for the oversized-payload counterexample: 4000064
channels (e.g. a 1000016 × 1000 RGBA raster has more), capacity
4000064·2/8 = 1000016 bytes — enough for the 15-byte header plus a
1000001-byte payload. -/
def stegoBigCarrier : List Nat := List.replicate 4000064 0

/-- Oversized payloads: if the encoded payload exceeds 1,000,000 bytes
but still fits the carrier, embedding succeeds and extraction raises
the length-cap error. -/
theorem extract_payload_too_long {α : Type} (c : JsonCodec α)
    (img : List Nat) (P : α)
    (himg : ∀ v ∈ img, v < 256)
    (hcap : 15 + (c.dumps P).length ≤ img.length * BITS_PER_CHANNEL / 8)
    (hbig : 1000000 < (c.dumps P).length)
    (hfit : (c.dumps P).length < 4294967296) :
    embed_payload c img P = .ok (_embed_bytes img
      (STEGO_MARKER ++ packU32BE (c.dumps P).length ++ c.dumps P))
    ∧ extract_payload c (_embed_bytes img
      (STEGO_MARKER ++ packU32BE (c.dumps P).length ++ c.dumps P))
      = .error "Invalid payload length" := by
  have hml : (STEGO_MARKER ++ packU32BE (c.dumps P).length ++ c.dumps P).length
      = 15 + (c.dumps P).length := by
    simp only [List.length_append]
    rw [show STEGO_MARKER.length = 11 from by decide,
      show (packU32BE (c.dumps P).length).length = 4 from rfl]
  have hmsg : ∀ b ∈ STEGO_MARKER ++ packU32BE (c.dumps P).length ++ c.dumps P,
      b < 256 := by
    intro b hb
    rcases List.mem_append.mp hb with h | h
    · rcases List.mem_append.mp h with h1 | h1
      · revert h1
        have : ∀ b ∈ STEGO_MARKER, b < 256 := by decide
        exact this b
      · simp only [packU32BE, List.mem_cons, List.not_mem_nil, or_false] at h1
        rcases h1 with rfl | rfl | rfl | rfl <;> exact Nat.mod_lt _ (by omega)
    · exact c.dumps_lt P b h
  have h11 : STEGO_MARKER.length = 11 := by decide
  have hcap2 : (STEGO_MARKER ++ packU32BE (c.dumps P).length ++ c.dumps P).length
      ≤ img.length * BITS_PER_CHANNEL / 8 := by rw [hml]; omega
  constructor
  · show (if img.length * BITS_PER_CHANNEL / 8
        < (STEGO_MARKER ++ packU32BE (c.dumps P).length ++ c.dumps P).length then
          (.error "Payload too large" : Except String (List Nat))
        else .ok (_embed_bytes img
          (STEGO_MARKER ++ packU32BE (c.dumps P).length ++ c.dumps P)))
      = .ok (_embed_bytes img
          (STEGO_MARKER ++ packU32BE (c.dumps P).length ++ c.dumps P))
    rw [if_neg (by rw [hml]; omega)]
  · have hmarker : _extract_bytes (_embed_bytes img
        (STEGO_MARKER ++ packU32BE (c.dumps P).length ++ c.dumps P)) 0
          STEGO_MARKER.length = STEGO_MARKER := by
      rw [extract_bytes_embed img _ 0 STEGO_MARKER.length himg hmsg
        (by rw [hml, h11]; omega) hcap2]
      rw [List.drop_zero, List.append_assoc]
      exact List.take_left' rfl
    have hlenb : _extract_bytes (_embed_bytes img
        (STEGO_MARKER ++ packU32BE (c.dumps P).length ++ c.dumps P))
          STEGO_MARKER.length 4 = packU32BE (c.dumps P).length := by
      rw [extract_bytes_embed img _ STEGO_MARKER.length 4 himg hmsg
        (by rw [hml, h11]; omega) hcap2]
      rw [List.append_assoc, List.drop_left' rfl]
      exact List.take_left' rfl
    have hext : extract_payload_from_png (_embed_bytes img
        (STEGO_MARKER ++ packU32BE (c.dumps P).length ++ c.dumps P))
        = .error "Invalid payload length" := by
      show (if _extract_bytes (_embed_bytes img
            (STEGO_MARKER ++ packU32BE (c.dumps P).length ++ c.dumps P)) 0
              STEGO_MARKER.length ≠ STEGO_MARKER then
          (.ok none : Except String (Option (List Nat)))
        else if 1000000 < unpackU32BE (_extract_bytes (_embed_bytes img
            (STEGO_MARKER ++ packU32BE (c.dumps P).length ++ c.dumps P))
              STEGO_MARKER.length 4) then .error "Invalid payload length"
        else .ok (some (_extract_bytes (_embed_bytes img
            (STEGO_MARKER ++ packU32BE (c.dumps P).length ++ c.dumps P))
              (STEGO_MARKER.length + 4) (unpackU32BE (_extract_bytes (_embed_bytes img
                (STEGO_MARKER ++ packU32BE (c.dumps P).length ++ c.dumps P))
                  STEGO_MARKER.length 4)))))
        = .error "Invalid payload length"
      rw [hmarker, if_neg (by simp), hlenb, unpack_packU32BE _ hfit,
        if_pos hbig]
    unfold extract_payload
    rw [hext]

/-- The claim as stated fails: a carrier with sufficient capacity for a
1000001-byte payload embeds it fine, but extraction raises the 1 MB
length-cap ValueError instead of returning the payload. -/
theorem claim_C7_counterexample :
    15 + (byteCodec.dumps 1000001).length
        ≤ stegoBigCarrier.length * BITS_PER_CHANNEL / 8
    ∧ embed_payload byteCodec stegoBigCarrier 1000001 = .ok (_embed_bytes
        stegoBigCarrier (STEGO_MARKER ++ packU32BE (byteCodec.dumps 1000001).length
          ++ byteCodec.dumps 1000001))
    ∧ extract_payload byteCodec (_embed_bytes stegoBigCarrier
        (STEGO_MARKER ++ packU32BE (byteCodec.dumps 1000001).length
          ++ byteCodec.dumps 1000001))
        = .error "Invalid payload length" := by
  have hdlen : (byteCodec.dumps 1000001).length = 1000001 := by
    show (List.replicate 1000001 48).length = 1000001
    exact List.length_replicate 1000001 48
  have hclen : stegoBigCarrier.length = 4000064 := by
    show (List.replicate 4000064 0).length = 4000064
    exact List.length_replicate 4000064 0
  have hcap : 15 + (byteCodec.dumps 1000001).length
      ≤ stegoBigCarrier.length * BITS_PER_CHANNEL / 8 := by
    rw [hdlen, hclen]
    norm_num [BITS_PER_CHANNEL]
  have himg : ∀ v ∈ stegoBigCarrier, v < 256 := by
    intro v hv
    rcases List.eq_of_mem_replicate hv with rfl
    omega
  have h := extract_payload_too_long byteCodec stegoBigCarrier 1000001 himg hcap
    (by rw [hdlen]; norm_num) (by rw [hdlen]; norm_num)
  exact ⟨hcap, h.1, h.2⟩

end Echotome
